import Mathlib

/-!
A verification development for the Benford's-Law web application.

Python strings are modeled as lists of characters (`PyStr`), Python floats as
rationals (`ℚ`), and fallible code as `Except`/`Option`.  Each definition below
is a shallow embedding of the correspondingly named function of the source
(`app.py`, `benford/analyzer.py`, `benford/interpretation.py`,
`benford/external_data.py`); deviations forced by the embedding (e.g. the
idealisation of the external Fernet cipher) are recorded in doc comments.
-/

/-- Python `str` values, modeled as lists of characters. -/
abbrev PyStr := List Char

/-- Convert a Lean string literal to the `PyStr` model. -/
def str (s : String) : PyStr := s.data

/-- Helper for `splitBy`: accumulates the current chunk (reversed) while
scanning.  Mirrors the chunking behaviour of Python `str.split`-style
splitting: a separator ends the current chunk. -/
def splitByAux (p : Char → Bool) : List Char → List Char → List (List Char)
  | acc, [] => [acc.reverse]
  | acc, c :: rest =>
    if p c then acc.reverse :: splitByAux p [] rest
    else splitByAux p (c :: acc) rest

/-- Split a character list at every character satisfying `p`; empty chunks are
kept (callers drop them when Python's `str.split()` would). -/
def splitBy (p : Char → Bool) (l : List Char) : List (List Char) :=
  splitByAux p [] l

/-- Python `sep.join(words)`. -/
def joinSep (sep : List Char) : List (List Char) → List Char
  | [] => []
  | [w] => w
  | w :: ws => w ++ sep ++ joinSep sep ws

/-- Remove the characters satisfying `bad` from both ends of a list: Python
`str.strip(...)`. -/
def stripEnds (bad : Char → Bool) (l : List Char) : List Char :=
  ((l.dropWhile bad).reverse.dropWhile bad).reverse

/-- The decimal digit characters. -/
def digitChar (n : ℕ) : Char :=
  match n with
  | 0 => '0' | 1 => '1' | 2 => '2' | 3 => '3' | 4 => '4'
  | 5 => '5' | 6 => '6' | 7 => '7' | 8 => '8' | _ => '9'

/-- Fuel-driven decimal rendering of a natural number (most significant digit
first); the fuel `n + 1` always suffices. -/
def natDigitsAux : ℕ → ℕ → List Char
  | 0, _ => []
  | _ + 1, n =>
    if n < 10 then [digitChar n]
    else natDigitsAux n (n / 10) ++ [digitChar (n % 10)]

/-- Decimal rendering of a natural number. -/
def natToChars (n : ℕ) : List Char := natDigitsAux (n + 1) n

/-- Left-pad with zeros to width `k`: the zero padding of Python's fixed-point
formatting. -/
def padZeros (k : ℕ) (l : List Char) : List Char :=
  List.replicate (k - l.length) '0' ++ l

/-- Python `f"{q:.df}"` fixed-point formatting with `d` decimal places,
modeling IEEE floats as rationals.  Rounds to the nearest multiple of
`10 ^ (-d)`; for values that are binary floating-point numbers a tie (which
Python breaks to even) cannot occur, as a tie would need a factor 5 in the
value's denominator. -/
def fmtFixed (d : ℕ) (q : ℚ) : List Char :=
  let n : ℤ := round (q * (10 : ℚ) ^ d)
  let m : ℕ := n.natAbs
  let intPart := natToChars (m / 10 ^ d)
  let fracPart := padZeros d (natToChars (m % 10 ^ d))
  (if n < 0 then ['-'] else []) ++ intPart ++ ['.'] ++ fracPart

/-- Five-decimal formatting, as used by the analyzer's report. -/
def fmt5 (q : ℚ) : List Char := fmtFixed 5 q

/-- Four-decimal formatting, as used by the interpretation detail line. -/
def fmt4 (q : ℚ) : List Char := fmtFixed 4 q

/-- Decompose a text file's contents into lines at newline characters.
A trailing newline yields a final empty line. -/
def linesOf (l : List Char) : List (List Char) :=
  splitBy (fun c => c = '\n') l

/-- The whitespace characters on which Python `str.split()` (no argument)
splits an ASCII string. -/
def pyIsSpace (c : Char) : Bool :=
  c = ' ' || c = '\t' || c = '\n' || c = '\r' || c = '\x0b' || c = '\x0c'

/-- The characters kept by werkzeug `secure_filename`'s strip regex:
ASCII letters, digits, `_`, `.`, `-`. -/
def allowedFilenameChar (c : Char) : Bool :=
  c.isAlphanum || c = '_' || c = '.' || c = '-'

/-- werkzeug `secure_filename`, from its source: normalize to ASCII (the
NFKD+ascii-ignore step is modeled conservatively as dropping non-ASCII
characters), replace the path separator `/` by a space (`os.altsep` is `None`
on POSIX), split on whitespace and re-join with `_`, delete disallowed
characters, and strip `.` and `_` from both ends.  (The Windows device-name
branch is dead on POSIX.) -/
def secure_filename_chars (l : List Char) : List Char :=
  let ascii := l.filter (fun c => c.toNat < 128)
  let replaced := ascii.map (fun c => if c = '/' then ' ' else c)
  let words := (splitBy pyIsSpace replaced).filter (fun w => w ≠ [])
  let joined := joinSep ['_'] words
  let kept := joined.filter allowedFilenameChar
  stripEnds (fun c => c = '.' || c = '_') kept

/-- A resolved absolute path, as its list of components below the filesystem
root. -/
abbrev PathT := List PyStr

/-- `pathlib.PurePath.parents`: all proper prefixes of the path (the order is
irrelevant here; only membership is used). -/
def pathParents (p : PathT) : List PathT :=
  (List.range p.length).map (fun k => p.take k)

/-- `(base / name).resolve()` for a non-existent target: pathlib drops empty
components, starts over at the filesystem root if `name` is absolute, and
normalizes `.` and `..` components. -/
def pathJoinResolve (base : PathT) (name : PyStr) : PathT :=
  let parts := (splitBy (fun c => c = '/') name).filter (fun w => w ≠ [])
  let start := if name.head? = some '/' then ([] : PathT) else base
  parts.foldl
    (fun acc part =>
      if part = str (".") then acc
      else if part = str ("..") then acc.dropLast
      else acc ++ [part])
    start

/-- `UPLOAD_ROOT = Path('uploads').resolve()`: a representative absolute
resolved uploads directory (the concrete prefix is irrelevant to every
property proved below). -/
def UPLOAD_ROOT : PathT := [str ("srv"), str ("benford"), str ("uploads")]

/-- `app.build_upload_path`: sanitize a provided filename and ensure it
remains within the uploads directory; `Except.error` models the raised
`ValueError("Invalid upload path")`. -/
def build_upload_path (filename : PyStr) : Except PyStr (PyStr × PathT) :=
  let safe_name := secure_filename_chars filename
  let candidate := pathJoinResolve UPLOAD_ROOT safe_name
  if UPLOAD_ROOT ∉ pathParents candidate ∧ candidate ≠ UPLOAD_ROOT then
    .error (str ("Invalid upload path"))
  else
    .ok (safe_name, candidate)

/-- `app.InMemoryRateLimiter`: per-identifier lists of admission timestamps
(seconds, as `ℚ`); the `threading.Lock` serialises `check`, so the sequential
model below is the per-call semantics. -/
structure InMemoryRateLimiter where
  max_requests : ℕ
  window_seconds : ℚ
  store : String → List ℚ

/-- A fresh in-memory limiter (`store` starts as an empty dict; `setdefault`
yields `[]` for an unseen key). -/
def InMemoryRateLimiter.fresh (max_requests : ℕ) (window_seconds : ℚ) :
    InMemoryRateLimiter :=
  ⟨max_requests, window_seconds, fun _ => []⟩

/-- `InMemoryRateLimiter.check` at monotonic time `now`: prune entries older
than `now - window` (keeping `ts >= window_start`), deny if the pruned count
already reaches `max_requests` (writing back the pruned list), otherwise admit
and append `now`. -/
def InMemoryRateLimiter.check (rl : InMemoryRateLimiter) (now : ℚ)
    (key : String) : Bool × InMemoryRateLimiter :=
  let window_start := now - rl.window_seconds
  let entries := (rl.store key).filter (fun ts => window_start ≤ ts)
  if rl.max_requests ≤ entries.length then
    (false, { rl with store := fun k => if k = key then entries else rl.store k })
  else
    (true, { rl with store := fun k => if k = key then entries ++ [now] else rl.store k })

/-- Run a sequence of `check` calls for one identifier at the given times,
collecting the admit/deny answers. -/
def runChecks (rl : InMemoryRateLimiter) (key : String) :
    List ℚ → List Bool × InMemoryRateLimiter
  | [] => ([], rl)
  | t :: ts =>
    let step := rl.check t key
    let rest := runChecks step.2 key ts
    (step.1 :: rest.1, rest.2)

/-- `app.RedisRateLimiter` (live-client path): per key a Redis sorted set whose
members are the millisecond timestamps `str(now_ms)` with score `now_ms`,
modeled as the list of distinct stored milliseconds.  The `expire` call only
garbage-collects an idle key and is not modeled. -/
structure RedisRateLimiter where
  max_requests : ℕ
  window_seconds : ℚ
  store : String → List ℤ

/-- A fresh Redis-backed limiter (no keys stored). -/
def RedisRateLimiter.fresh (max_requests : ℕ) (window_seconds : ℚ) :
    RedisRateLimiter :=
  ⟨max_requests, window_seconds, fun _ => []⟩

/-- `RedisRateLimiter.check` at wall-clock millisecond `now_ms`
(`int(time.time() * 1000)`): `zremrangebyscore key 0 (now_ms - window_ms)`
drops scores in `[0, now_ms - window_ms]`, `zcard` counts the survivors,
`zadd {str(now_ms): now_ms}` inserts the member if absent (a same-millisecond
member is merely re-scored), and the call admits iff the pre-insertion count
is at most `max_requests`. -/
def RedisRateLimiter.check (rl : RedisRateLimiter) (now_ms : ℤ)
    (key : String) : Bool × RedisRateLimiter :=
  let window_ms : ℤ := ⌊rl.window_seconds * 1000⌋
  let removed := (rl.store key).filter
    (fun s => ¬ (0 ≤ s ∧ s ≤ now_ms - window_ms))
  let count := removed.length
  let after := if now_ms ∈ removed then removed else removed ++ [now_ms]
  (decide (count ≤ rl.max_requests),
   { rl with store := fun k => if k = key then after else rl.store k })

/-- Run a sequence of Redis `check` calls for one identifier. -/
def runRedisChecks (rl : RedisRateLimiter) (key : String) :
    List ℤ → List Bool × RedisRateLimiter
  | [] => ([], rl)
  | t :: ts =>
    let step := rl.check t key
    let rest := runRedisChecks step.2 key ts
    (step.1 :: rest.1, rest.2)

/-- `KAGGLE_CALL_LIMIT = 20`. -/
def KAGGLE_CALL_LIMIT : ℕ := 20

/-- `KAGGLE_CALL_WINDOW = timedelta(hours=1)`, in seconds. -/
def KAGGLE_CALL_WINDOW : ℚ := 3600

/-- The pruning shared by `record_kaggle_call` and `remaining_kaggle_calls`:
keep the session's recorded call timestamps strictly newer than
`now - KAGGLE_CALL_WINDOW`. -/
def prune_calls (now : ℚ) (calls : List ℚ) : List ℚ :=
  calls.filter (fun ts => now - KAGGLE_CALL_WINDOW < ts)

/-- `app.record_kaggle_call`: prune the stored call list and append `now`. -/
def record_kaggle_call (now : ℚ) (calls : List ℚ) : List ℚ :=
  prune_calls now calls ++ [now]

/-- `app.remaining_kaggle_calls`: prune, write the pruned list back to the
session (second component), and report `max(limit - count, 0)` (the `max` is
the truncated subtraction). -/
def remaining_kaggle_calls (now : ℚ) (calls : List ℚ) : ℕ × List ℚ :=
  let pruned := prune_calls now calls
  (KAGGLE_CALL_LIMIT - pruned.length, pruned)

/-- `app.kaggle_cache_get`: a stored entry is served only while un-expired
(`now > expires_at` evicts). -/
def kaggle_cache_get {α : Type} (now : ℚ) (entry : Option (α × ℚ)) : Option α :=
  match entry with
  | none => none
  | some (v, expires_at) => if now > expires_at then none else some v

/-- Outcome of one POST to the `/kaggle` search route (the slice of `app.kaggle`
after CSRF/credential checks): whether a rate-limit error was flashed, whether
the remote catalog was actually called, the served results, the session's call
list afterwards, and the remaining-call count shown to the user. -/
structure KaggleSearchOutcome (α : Type) where
  rate_limited : Bool
  remote_called : Bool
  results : Option α
  calls : List ℚ
  remaining : ℕ

/-- The `/kaggle` search handler at time `now`, given the session's recorded
call list, the (already expiry-checked) cache lookup result, and the result
list a remote search would return: `ensure_kaggle_capacity` first (its
`remaining_kaggle_calls` call also writes the pruned list back), then the
`if cached:` branch, then `record_kaggle_call` and a final
`remaining_kaggle_calls` — on both branches.  Search results are lists, and
`if cached:` is Python truthiness: a `None` lookup AND a live cache entry
holding an empty result list both fall through to the remote
authenticate-search-cache branch. -/
def kaggle_search_post {β : Type} (now : ℚ) (calls₀ : List ℚ)
    (cached : Option (List β)) (remote_result : List β) :
    KaggleSearchOutcome (List β) :=
  let cap := remaining_kaggle_calls now calls₀
  if cap.1 = 0 then
    ⟨true, false, none, cap.2, cap.1⟩
  else
    let served := match cached with
      | some [] => (remote_result, true)
      | some v => (v, false)
      | none => (remote_result, true)
    let calls₂ := record_kaggle_call now cap.2
    let fin := remaining_kaggle_calls now calls₂
    ⟨false, served.2, some served.1, fin.2, fin.1⟩

/-- What `BenfordAnalyzer.run`'s artifact-rendering phase left behind: which
files were written and whether an exception escaped `run`. -/
structure RenderOutcome where
  plot_written : Bool
  report_written : Bool
  raised : Bool
deriving DecidableEq

/-- One best-effort-free write step (`_save_plot` / `_save_report`): skipped
when no path was given; otherwise it writes, or raises if the write fails.
Returns (written, raised). -/
def save_artifact_step (path : Option PyStr) (write_ok : Bool) : Bool × Bool :=
  match path with
  | none => (false, false)
  | some _ => if write_ok then (true, false) else (false, true)

/-- The rendering tail of `BenfordAnalyzer.run`: `_save_plot` then
`_save_report`, sequentially, with no exception handling between them — an
exception from the plot write propagates out of `run` before `_save_report`
is ever called. -/
def analyzer_render (plot_path report_path : Option PyStr)
    (plot_write_ok report_write_ok : Bool) : RenderOutcome :=
  let plot := save_artifact_step plot_path plot_write_ok
  if plot.2 then ⟨plot.1, false, true⟩
  else
    let report := save_artifact_step report_path report_write_ok
    ⟨plot.1, report.1, report.2⟩

/-- The conclusion sentence of `BenfordAnalyzer._save_report`. -/
def report_conclusion (p : ℚ) : PyStr :=
  if p > 5 / 100 then str ("No anomaly detected") else str ("Anomaly detected")

/-- The full text written by `BenfordAnalyzer._save_report` (the four `f.write`
calls concatenated), for chi-squared statistic `tstat` and p-value `p`. -/
def save_report_text (column : PyStr) (tstat p : ℚ) : PyStr :=
  str ("Benford\x27s Law Report for: ") ++ column ++ str ("\n\n") ++
  str ("Chi-squared statistic: ") ++ fmt5 tstat ++ str ("\n") ++
  str ("P-value: ") ++ fmt5 p ++ str ("\n") ++
  str ("Conclusion: ") ++ report_conclusion p ++ str ("\n")

/-- A JSON value, as produced/consumed by `json.dumps`/`json.loads` in
`benford.external_data`. -/
inductive Json where
  | str (s : PyStr)
  | num (q : ℚ)
  | bool (b : Bool)
  | null
  | arr (items : List Json)
  | obj (fields : List (PyStr × Json))

/-- An idealised Fernet token.  Real Fernet is AES128-CBC + HMAC-SHA256 over a
key derived (in `_get_fernet`) as `urlsafe_b64encode(sha256(secret))`; the
ideal model keeps the authenticated plaintext together with the secret it was
encrypted under (`valid`), and lumps every byte string that is not an honestly
produced token — including any truncation or tampering of one, which the HMAC
rejects — into `garbage`. -/
inductive FernetToken where
  | valid (secret : PyStr) (payload : Json)
  | garbage

/-- Ideal Fernet decryption: succeeds exactly on a token honestly produced
under the same secret (sha256 key derivation is injective in the ideal
model); anything else raises `InvalidToken`. -/
def fernet_decrypt (secret : PyStr) (tok : FernetToken) : Option Json :=
  match tok with
  | .valid s payload => if s = secret then some payload else none
  | .garbage => none

/-- Truncating (or otherwise mutilating) a Fernet token always breaks its
HMAC, so the result is `garbage`. -/
def truncate_token (_ : FernetToken) : FernetToken := .garbage

/-- The errors of `benford.external_data` relevant here:
`ExternalDataAuthError` with its message. -/
inductive AuthError where
  | invalidToken
  | malformedPayload
deriving DecidableEq

/-- `external_data.encrypt_credentials`: serialise the credential dict with
`json.dumps` and encrypt under the Fernet key derived from the secret. -/
def encrypt_credentials (secret : PyStr) (credentials : List (PyStr × PyStr)) :
    FernetToken :=
  .valid secret (.obj (credentials.map (fun kv => (kv.1, Json.str kv.2))))

/-- `external_data.decrypt_credentials`: decrypt (an `InvalidToken` becomes
`ExternalDataAuthError("Invalid or expired credentials.")`), parse, and insist
the payload is a dict (`ExternalDataAuthError("Invalid credential payload.")`
otherwise). -/
def decrypt_credentials (secret : PyStr) (tok : FernetToken) :
    Except AuthError (List (PyStr × Json)) :=
  match fernet_decrypt secret tok with
  | none => .error .invalidToken
  | some payload =>
    match payload with
    | .obj fields => .ok fields
    | _ => .error .malformedPayload

/-- The triple returned by `benford.interpretation.interpret_results`. -/
structure Interpretation where
  headline : PyStr
  detail : PyStr
  guidance : PyStr
deriving DecidableEq

/-- `name = dataset_name or "this dataset"`: Python `or` also replaces the
empty string. -/
def interpretation_name (dataset_name : Option PyStr) : PyStr :=
  match dataset_name with
  | some s => if s = [] then str ("this dataset") else s
  | none => str ("this dataset")

/-- `benford.interpretation.interpret_results`, translated clause by clause
(floats as `ℚ`; `0.05` is the threshold constant). -/
def interpret_results (p_value chi_squared : Option ℚ)
    (dataset_name : Option PyStr) (expectation : Option PyStr) :
    Interpretation :=
  let name := interpretation_name dataset_name
  match p_value, chi_squared with
  | some p, some c =>
    let outcome := if p > 5 / 100 then str ("likely follows Benford\x27s Law")
      else str ("likely does not follow Benford\x27s Law")
    let alignment :=
      match expectation with
      | some e =>
        if e = [] then []
        else if e = str ("conform") ∧ p > 5 / 100 then
          str ("This matches the expected behavior for this dataset.")
        else if e = str ("nonconform") ∧ p ≤ 5 / 100 then
          str ("This deviation is expected for this dataset.")
        else
          str ("This result differs from the typical expectation—worth a closer look.")
      | none => []
    let guidance :=
      if p > 5 / 100 then
        str ("No red flags detected. The first-digit distribution is close to the Benford curve.")
      else
        str ("Significant deviation detected. Investigate the data generation process or potential anomalies.")
    ⟨name ++ [' '] ++ outcome,
     stripEnds pyIsSpace
       (str ("p-value: ") ++ fmt4 p ++ str (", chi-squared: ") ++ fmt4 c ++
        str (". ") ++ alignment),
     guidance⟩
  | _, _ =>
    ⟨str ("Could not interpret results for ") ++ name,
     str ("The analysis did not return a p-value or chi-squared statistic."),
     str ("Re-run the analysis or verify the dataset contains numeric data.")⟩

/-- A cell of a CSV column as pandas sees it after `read_csv`.  `num` is a
parsed numeric value; `strv p` is a string cell in an object-dtype column,
which `pd.to_numeric(errors='coerce')` maps to `p` (`none` = NaN); `empty` is
a missing value (NaN). -/
inductive Cell where
  | num (q : ℚ)
  | strv (parsed : Option ℚ)
  | empty
deriving DecidableEq

/-- `pd.to_numeric(col, errors='coerce')` followed by `.dropna()`, per cell. -/
def Cell.to_numeric : Cell → Option ℚ
  | .num q => some q
  | .strv p => p
  | .empty => none

/-- A pandas DataFrame: named columns of cells. -/
structure DataFrame where
  columns : List (String × List Cell)

/-- `df.columns`. -/
def DataFrame.colNames (df : DataFrame) : List String :=
  df.columns.map Prod.fst

/-- `df[column]` (the first column of that name, `none` if absent). -/
def DataFrame.lookupCol (df : DataFrame) (column : String) : Option (List Cell) :=
  (df.columns.find? (fun kv => kv.1 = column)).map Prod.snd

/-- The typed errors raised by `BenfordAnalyzer.load_data` (`FileNotFoundError`
and the two `ValueError` shapes). -/
inductive LoadError where
  | fileNotFound
  | columnNotFound (column : String)
  | noNumericData (column : String)
deriving DecidableEq

/-- `BenfordAnalyzer.load_data`: fail if the file is absent; fail with
`ColumnNotFound` if the named column is not among `df.columns`; coerce to
numeric and drop NaNs; fail with `NoNumericData` if nothing remains. -/
def load_data (file : Option DataFrame) (column : String) :
    Except LoadError (List ℚ) :=
  match file with
  | none => .error .fileNotFound
  | some df =>
    match df.lookupCol column with
    | none => .error (.columnNotFound column)
    | some cells =>
      let series := cells.filterMap Cell.to_numeric
      if series = [] then .error (.noNumericData column) else .ok series

/-- A column's dtype is numeric (`select_dtypes(include=['number'])`) iff it
contains no string cell — numbers and NaNs only. -/
def numeric_dtype (cells : List Cell) : Bool :=
  cells.all (fun c => match c with | .strv _ => false | _ => true)

/-- `df.select_dtypes(include=['number']).columns.tolist()` of the caller's
error path in `app.upload_file`. -/
def numeric_columns (df : DataFrame) : List String :=
  (df.columns.filter (fun kv => numeric_dtype kv.2)).map Prod.fst

/-- The flash message `app.upload_file` presents when the analyzer raised a
`ValueError` (column missing or non-numeric): it lists the available numeric
columns, or all columns when none is numeric. -/
def column_error_message (df : DataFrame) (column : String) : PyStr :=
  let numeric_cols := numeric_columns df
  if numeric_cols ≠ [] then
    str ("Column \x27") ++ column.data ++
    str ("\x27 not found or not numeric. Available numeric columns: ") ++
    joinSep (str (", ")) (numeric_cols.map String.data)
  else
    str ("No numeric columns found in the CSV. Available columns: ") ++
    joinSep (str (", ")) ((df.colNames).map String.data)

/-- Bool form of "the raw filename contains a traversal sequence or an
absolute-path prefix" (the adversarial inputs of the SecureName contract). -/
def has_traversal (filename : PyStr) : Bool :=
  decide ((str ("../")) <:+: filename) || decide (filename.head? = some '/')

theorem splitByAux_no_match (p : Char → Bool) (l : List Char) :
    ∀ acc : List Char, (∀ c ∈ l, p c = false) →
    splitByAux p acc l = [acc.reverse ++ l] := by
  induction l with
  | nil => intro acc _; simp [splitByAux]
  | cons c rest ih =>
    intro acc h
    have hc : p c = false := h c (by simp)
    have ih' := ih (c :: acc) (fun d hd => h d (by simp [hd]))
    simp [splitByAux, hc, ih']

theorem splitBy_no_match (p : Char → Bool) (l : List Char)
    (h : ∀ c ∈ l, p c = false) : splitBy p l = [l] := by
  simpa using splitByAux_no_match p l [] h

theorem splitByAux_break (p : Char → Bool) (c₀ : Char) (rest : List Char)
    (hc : p c₀ = true) :
    ∀ w : List Char, (∀ c ∈ w, p c = false) → ∀ acc : List Char,
    splitByAux p acc (w ++ c₀ :: rest) = (acc.reverse ++ w) :: splitByAux p [] rest := by
  intro w
  induction w with
  | nil => intro _ acc; simp [splitByAux, hc]
  | cons d w' ih =>
    intro hw acc
    have hd : p d = false := hw d (by simp)
    have ih' := ih (fun c hm => hw c (by simp [hm])) (d :: acc)
    simp [splitByAux, hd, ih']

theorem linesOf_cons_line (w rest : List Char) (hw : ∀ c ∈ w, c ≠ '\n') :
    linesOf (w ++ '\n' :: rest) = w :: linesOf rest := by
  have hb := splitByAux_break (fun c => c = '\n') '\n' rest (by simp) w
    (fun c hm => by simp [hw c hm]) []
  simpa [linesOf, splitBy] using hb

theorem stripEnds_subset (bad : Char → Bool) (l : List Char) :
    ∀ c ∈ stripEnds bad l, c ∈ l := by
  intro c hc
  unfold stripEnds at hc
  have h1 : c ∈ (l.dropWhile bad).reverse.dropWhile bad := List.mem_reverse.mp hc
  have h2 : c ∈ (l.dropWhile bad).reverse :=
    (List.dropWhile_suffix bad).sublist.subset h1
  have h3 : c ∈ l.dropWhile bad := List.mem_reverse.mp h2
  exact (List.dropWhile_suffix bad).sublist.subset h3

theorem stripEnds_head_false (bad : Char → Bool) (l : List Char) :
    ∀ c rest, stripEnds bad l = c :: rest → bad c = false := by
  intro c rest hcr
  have hsuf : (l.dropWhile bad).reverse.dropWhile bad <:+ (l.dropWhile bad).reverse :=
    List.dropWhile_suffix bad
  obtain ⟨t, ht⟩ := hsuf
  have hrev := congrArg List.reverse ht
  simp only [List.reverse_append, List.reverse_reverse] at hrev
  have hd : l.dropWhile bad = (c :: rest) ++ t.reverse := by
    rw [← hcr]
    exact hrev.symm
  have hne : l.dropWhile bad ≠ [] := by rw [hd]; simp
  have h1 : (l.dropWhile bad).head? = some c := by rw [hd]; rfl
  have h2 : (l.dropWhile bad).head? = some ((l.dropWhile bad).head hne) :=
    List.head?_eq_head hne
  have h3 : c = (l.dropWhile bad).head hne := by
    rw [h2] at h1
    exact (Option.some.inj h1).symm
  have hnb := List.head_dropWhile_not bad l hne
  rw [← h3] at hnb
  simpa using hnb

theorem secure_filename_chars_allowed (l : List Char) :
    ∀ c ∈ secure_filename_chars l, allowedFilenameChar c = true := by
  intro c hc
  simp only [secure_filename_chars] at hc
  have hk := stripEnds_subset _ _ c hc
  exact (List.mem_filter.mp hk).2

theorem secure_filename_chars_no_slash (l : List Char) :
    '/' ∉ secure_filename_chars l := by
  intro h
  exact absurd (secure_filename_chars_allowed l '/' h) (by decide)

theorem secure_filename_chars_head (l : List Char) (c : Char) (rest : List Char)
    (h : secure_filename_chars l = c :: rest) : c ≠ '.' ∧ c ≠ '_' := by
  have hb := stripEnds_head_false (fun c => c = '.' || c = '_')
    ((joinSep ['_']
      ((splitBy pyIsSpace ((l.filter (fun c => c.toNat < 128)).map
        (fun c => if c = '/' then ' ' else c))).filter
        (fun w => w ≠ []))).filter allowedFilenameChar) c rest
    (by simpa [secure_filename_chars] using h)
  simp at hb
  exact hb

theorem pathJoinResolve_nil (base : PathT) : pathJoinResolve base [] = base := by
  simp [pathJoinResolve, splitBy, splitByAux]

theorem pathJoinResolve_single (base : PathT) (w : List Char)
    (hne : w ≠ []) (hslash : '/' ∉ w)
    (hdot1 : w ≠ str (".")) (hdot2 : w ≠ str ("..")) :
    pathJoinResolve base w = base ++ [w] := by
  have hsplit : splitBy (fun c => c = '/') w = [w] :=
    splitBy_no_match _ w (fun c hc => by
      simp only [decide_eq_false_iff_not]
      exact fun e => hslash (e ▸ hc))
  obtain ⟨a, w', ha⟩ := List.exists_cons_of_ne_nil hne
  have hheadn : w.head? ≠ some '/' := by
    rw [ha]
    simp only [List.head?_cons, ne_eq, Option.some.injEq]
    intro e
    exact hslash (by rw [ha, e]; simp)
  simp [pathJoinResolve, hsplit, hne, hheadn, hdot1, hdot2]

theorem self_mem_pathParents_concat (base : PathT) (x : PyStr) :
    base ∈ pathParents (base ++ [x]) := by
  unfold pathParents
  refine List.mem_map.mpr ⟨base.length, ?_, ?_⟩
  · simp
  · exact List.take_left base [x]

theorem build_upload_path_spec (filename : PyStr) :
    build_upload_path filename =
      Except.ok (secure_filename_chars filename,
        UPLOAD_ROOT ++ (if secure_filename_chars filename = [] then []
          else [secure_filename_chars filename])) := by
  by_cases hsf : secure_filename_chars filename = []
  · simp only [build_upload_path, hsf, pathJoinResolve_nil]
    simp
  · obtain ⟨c, rest, hcr⟩ := List.exists_cons_of_ne_nil hsf
    have hhead := secure_filename_chars_head filename c rest hcr
    have hslash := secure_filename_chars_no_slash filename
    have hdot1 : secure_filename_chars filename ≠ str (".") := by
      rw [hcr]
      intro he
      simp only [str] at he
      have : c = '.' := (List.cons.inj he).1
      exact hhead.1 this
    have hdot2 : secure_filename_chars filename ≠ str ("..") := by
      rw [hcr]
      intro he
      simp only [str] at he
      have : c = '.' := (List.cons.inj he).1
      exact hhead.1 this
    have hres := pathJoinResolve_single UPLOAD_ROOT
      (secure_filename_chars filename) hsf hslash hdot1 hdot2
    have hmem := self_mem_pathParents_concat UPLOAD_ROOT (secure_filename_chars filename)
    simp only [build_upload_path, hres, hsf]
    simp [hmem]

/-- C1 counterexample: the raw filename `../secret.csv` contains a `../`
traversal sequence, yet `build_upload_path` does not fail with the
`InvalidPath` `ValueError` — it returns the sanitized name `secret.csv`
and the resolved path `UPLOAD_ROOT/secret.csv`. -/
theorem C1_counterexample_traversal_not_rejected :
    has_traversal (str ("../secret.csv")) = true ∧
    build_upload_path (str ("../secret.csv")) =
      Except.ok (str ("secret.csv"), UPLOAD_ROOT ++ [str ("secret.csv")]) := by
  constructor
  · decide
  · rfl

/-- C1 (amended): for every raw filename containing a `../` traversal sequence
or an absolute-path prefix, resolving it through `build_upload_path` does not
fail with `InvalidPath`; instead sanitization neutralizes the traversal: the
call returns the sanitized filename, which contains no path separator, and a
resolved path that is the upload root itself or a direct child of it — never
a path outside the root. -/
theorem C1_traversal_neutralized_and_confined (filename : PyStr)
    (_h : has_traversal filename = true) :
    build_upload_path filename =
      Except.ok (secure_filename_chars filename,
        UPLOAD_ROOT ++ (if secure_filename_chars filename = [] then []
          else [secure_filename_chars filename])) ∧
    '/' ∉ secure_filename_chars filename :=
  ⟨build_upload_path_spec filename, secure_filename_chars_no_slash filename⟩

/-- Witness for the amended C1 at the absolute path `/etc/passwd`. -/
theorem C1_traversal_neutralized_and_confined_witness :
    has_traversal (str ("/etc/passwd")) = true ∧
    (build_upload_path (str ("/etc/passwd")) =
      Except.ok (secure_filename_chars (str ("/etc/passwd")),
        UPLOAD_ROOT ++ (if secure_filename_chars (str ("/etc/passwd")) = [] then []
          else [secure_filename_chars (str ("/etc/passwd"))])) ∧
    '/' ∉ secure_filename_chars (str ("/etc/passwd"))) :=
  ⟨by decide, C1_traversal_neutralized_and_confined (str ("/etc/passwd")) (by decide)⟩

/-- C10: for every raw filename whose sanitized form is the empty string,
`build_upload_path` does not raise: it returns the empty string as the safe
filename and the upload root directory itself as the resolved path. -/
theorem C10_empty_sanitized_returns_root (filename : PyStr)
    (h : secure_filename_chars filename = []) :
    build_upload_path filename = Except.ok ([], UPLOAD_ROOT) := by
  have hs := build_upload_path_spec filename
  rw [h] at hs
  simpa using hs

/-- Witness for C10 at the filename `..`. -/
theorem C10_empty_sanitized_returns_root_witness :
    secure_filename_chars (str ("..")) = [] ∧
    build_upload_path (str ("..")) = Except.ok ([], UPLOAD_ROOT) :=
  ⟨by decide, C10_empty_sanitized_returns_root (str ("..")) (by decide)⟩

/-- C5 counterexample: with both artifact paths given, a failing plot write
(and a report write that would succeed) leaves the report unwritten — the
plot failure propagates out of `run` before `_save_report` is called,
contradicting the claimed independence of the two writes. -/
theorem C5_counterexample_plot_failure_blocks_report :
    (analyzer_render (some (str ("plot.png"))) (some (str ("report.txt")))
      false true).report_written = false := by
  rfl

/-- C5 (amended): the two artifact writes are sequential, plot first.  With
both paths given, the plot is written iff its own write succeeds (a report
failure cannot prevent it), while the report is written only if the plot
write succeeded as well — a plot failure aborts the run before the report is
attempted; an exception escapes iff either write failed. -/
theorem C5_render_sequential_dependence (plot_path report_path : PyStr)
    (plot_write_ok report_write_ok : Bool) :
    analyzer_render (some plot_path) (some report_path)
        plot_write_ok report_write_ok =
      ⟨plot_write_ok, plot_write_ok && report_write_ok,
       !(plot_write_ok && report_write_ok)⟩ := by
  cases plot_write_ok <;> cases report_write_ok <;> rfl

/-- C7: decrypting an honestly encrypted credential dict with the same secret
returns exactly the serialised credential pairs; decrypting with a different
secret, or decrypting a truncated/tampered token, fails with
`ExternalDataAuthError` (the `InvalidToken` branch). -/
theorem C7_credential_roundtrip (secret wrong : PyStr)
    (creds : List (PyStr × PyStr)) (h : wrong ≠ secret) :
    decrypt_credentials secret (encrypt_credentials secret creds) =
      Except.ok (creds.map (fun kv => (kv.1, Json.str kv.2))) ∧
    decrypt_credentials wrong (encrypt_credentials secret creds) =
      Except.error AuthError.invalidToken ∧
    decrypt_credentials secret (truncate_token (encrypt_credentials secret creds)) =
      Except.error AuthError.invalidToken := by
  have h2 : ¬ (secret = wrong) := fun e => h e.symm
  refine ⟨?_, ?_, rfl⟩
  · simp [decrypt_credentials, encrypt_credentials, fernet_decrypt]
  · simp [decrypt_credentials, encrypt_credentials, fernet_decrypt, h2]

/-- Witness for C7 with the credentials used by the repository's own test. -/
theorem C7_credential_roundtrip_witness :
    (str ("other")) ≠ (str ("supersecret")) ∧
    (decrypt_credentials (str ("supersecret"))
        (encrypt_credentials (str ("supersecret"))
          [(str ("username"), str ("user")), (str ("key"), str ("abcd1234ef"))]) =
      Except.ok ([(str ("username"), str ("user")),
        (str ("key"), str ("abcd1234ef"))].map (fun kv => (kv.1, Json.str kv.2))) ∧
    decrypt_credentials (str ("other"))
        (encrypt_credentials (str ("supersecret"))
          [(str ("username"), str ("user")), (str ("key"), str ("abcd1234ef"))]) =
      Except.error AuthError.invalidToken ∧
    decrypt_credentials (str ("supersecret"))
        (truncate_token (encrypt_credentials (str ("supersecret"))
          [(str ("username"), str ("user")), (str ("key"), str ("abcd1234ef"))])) =
      Except.error AuthError.invalidToken) :=
  ⟨by decide, C7_credential_roundtrip (str ("supersecret")) (str ("other"))
    [(str ("username"), str ("user")), (str ("key"), str ("abcd1234ef"))] (by decide)⟩

/-- C8 counterexample: with both statistics absent, the returned headline
depends on the dataset label, so the "could not interpret" triple is not the
same regardless of the other arguments. -/
theorem C8_counterexample_headline_depends_on_label :
    (interpret_results none none (some (str ("Foo"))) none).headline ≠
    (interpret_results none none none none).headline := by
  decide

/-- C8 (amended): with both statistics absent, `interpret_results` ignores the
expectation tag entirely and returns the fixed "could not interpret" detail
and guidance; only the headline varies, embedding the dataset label (or
"this dataset" when the label is absent or empty). -/
theorem C8_missing_stats_triple (label expectation expectation' : Option PyStr) :
    interpret_results none none label expectation =
      interpret_results none none label expectation' ∧
    interpret_results none none label expectation =
      ⟨str ("Could not interpret results for ") ++ interpretation_name label,
       str ("The analysis did not return a p-value or chi-squared statistic."),
       str ("Re-run the analysis or verify the dataset contains numeric data.")⟩ :=
  ⟨rfl, rfl⟩

theorem prune_calls_idem (now : ℚ) (l : List ℚ) :
    prune_calls now (prune_calls now l) = prune_calls now l := by
  simp [prune_calls, List.filter_filter]

theorem prune_calls_self_append (now : ℚ) (l : List ℚ) :
    prune_calls now (prune_calls now l ++ [now]) = prune_calls now l ++ [now] := by
  have hlt : now - KAGGLE_CALL_WINDOW < now := by
    unfold KAGGLE_CALL_WINDOW
    linarith
  simp [prune_calls, List.filter_append, List.filter_filter, hlt]

/-- C4 counterexample: a repeated search whose normalized key has a live cache
entry (stored non-empty result list `[7]`, expiring at t = 900 s, queried at
t = 0) is served from the cache without a remote call, yet the per-session
recorded-calls list grows from `[]` to `[0]` and the remaining-call count
drops from 20 to 19 — the call budget IS consumed by a cache hit. -/
theorem C4_counterexample_cache_hit_consumes_budget :
    (kaggle_search_post 0 [] (kaggle_cache_get 0 (some ([(7 : ℕ)], (900 : ℚ)))) [9]).remote_called
        = false ∧
    (kaggle_search_post 0 [] (kaggle_cache_get 0 (some ([(7 : ℕ)], (900 : ℚ)))) [9]).results
        = some [7] ∧
    (remaining_kaggle_calls 0 []).1 = 20 ∧
    (kaggle_search_post 0 [] (kaggle_cache_get 0 (some ([(7 : ℕ)], (900 : ℚ)))) [9]).calls
        = [0] ∧
    (kaggle_search_post 0 [] (kaggle_cache_get 0 (some ([(7 : ℕ)], (900 : ℚ)))) [9]).remaining
        = 19 := by
  refine ⟨rfl, rfl, rfl, ?_, ?_⟩ <;>
    simp [kaggle_search_post, kaggle_cache_get, remaining_kaggle_calls,
      record_kaggle_call, prune_calls, KAGGLE_CALL_LIMIT, KAGGLE_CALL_WINDOW]

/-- C4 (amended): a search whose cache entry is live, holds a NON-EMPTY result
list, and whose session still has capacity is served from the cache without
any remote call; a live cache entry holding an empty result list is falsy
under the handler's `if cached:` test, so the remote catalog is called again.
In both cases `record_kaggle_call()` still runs: the recorded calls list
becomes the pruned previous list plus the current timestamp, and the
remaining-call count decreases by one — it is not unchanged. -/
theorem C4_cache_hit_still_records_call {β : Type} (now : ℚ) (calls₀ : List ℚ)
    (v : List β) (expires_at : ℚ) (remote : List β)
    (hlive : ¬ now > expires_at)
    (hcap : (prune_calls now calls₀).length < KAGGLE_CALL_LIMIT) :
    (v ≠ [] →
      kaggle_search_post now calls₀ (kaggle_cache_get now (some (v, expires_at))) remote =
        ⟨false, false, some v, prune_calls now calls₀ ++ [now],
         KAGGLE_CALL_LIMIT - ((prune_calls now calls₀).length + 1)⟩) ∧
    kaggle_search_post now calls₀
        (kaggle_cache_get now (some (([] : List β), expires_at))) remote =
      ⟨false, true, some remote, prune_calls now calls₀ ++ [now],
       KAGGLE_CALL_LIMIT - ((prune_calls now calls₀).length + 1)⟩ := by
  have hcapne : KAGGLE_CALL_LIMIT - (prune_calls now calls₀).length ≠ 0 :=
    Nat.sub_ne_zero_of_lt hcap
  constructor
  · intro hv
    obtain ⟨a, t, rfl⟩ := List.exists_cons_of_ne_nil hv
    have hget : kaggle_cache_get now (some (a :: t, expires_at)) = some (a :: t) := by
      simp [kaggle_cache_get, hlive]
    simp only [kaggle_search_post, remaining_kaggle_calls, record_kaggle_call,
      hget, prune_calls_idem, prune_calls_self_append, hcapne, if_false]
    simp [List.length_append]
  · have hget : kaggle_cache_get now (some (([] : List β), expires_at)) =
        some ([] : List β) := by
      simp [kaggle_cache_get, hlive]
    simp only [kaggle_search_post, remaining_kaggle_calls, record_kaggle_call,
      hget, prune_calls_idem, prune_calls_self_append, hcapne, if_false]
    simp [List.length_append]

/-- Witness for the amended C4 at a fresh session: a live non-empty cached
result `[5]` is served without a remote call, a live cached empty list goes
remote, and both consume one unit of budget. -/
theorem C4_cache_hit_still_records_call_witness :
    (¬ (0 : ℚ) > 900) ∧
    (prune_calls 0 ([] : List ℚ)).length < KAGGLE_CALL_LIMIT ∧
    ([(5 : ℕ)] ≠ ([] : List ℕ)) ∧
    kaggle_search_post 0 [] (kaggle_cache_get 0 (some ([(5 : ℕ)], (900 : ℚ)))) [6] =
      ⟨false, false, some [5], prune_calls 0 [] ++ [0],
       KAGGLE_CALL_LIMIT - ((prune_calls 0 ([] : List ℚ)).length + 1)⟩ ∧
    kaggle_search_post 0 [] (kaggle_cache_get 0 (some (([] : List ℕ), (900 : ℚ)))) [6] =
      ⟨false, true, some [6], prune_calls 0 [] ++ [0],
       KAGGLE_CALL_LIMIT - ((prune_calls 0 ([] : List ℚ)).length + 1)⟩ :=
  ⟨by decide, by decide, by decide,
   (C4_cache_hit_still_records_call 0 [] [(5 : ℕ)] 900 [6]
     (by decide) (by decide)).1 (by decide),
   (C4_cache_hit_still_records_call 0 [] [(5 : ℕ)] 900 [6]
     (by decide) (by decide)).2⟩

theorem lookupCol_eq_none_of_not_mem (df : DataFrame) (column : String)
    (h : column ∉ df.colNames) : df.lookupCol column = none := by
  unfold DataFrame.lookupCol
  have hfind : df.columns.find? (fun kv => kv.1 = column) = none := by
    rw [List.find?_eq_none]
    intro kv hkv
    simp only [decide_eq_true_eq]
    intro he
    exact h (List.mem_map.mpr ⟨kv, hkv, he⟩)
  rw [hfind]
  rfl

/-- C9: loading a CSV without the requested column fails with `ColumnNotFound`,
and the error message the caller presents carries the list of available
numeric columns (as an infix of the flash message); loading a column that
exists but has zero numeric values after coercion fails with
`NoNumericData`. -/
theorem C9_load_error_taxonomy (df : DataFrame) (column : String) :
    (column ∉ df.colNames →
      load_data (some df) column = Except.error (LoadError.columnNotFound column) ∧
      (numeric_columns df ≠ [] →
        (joinSep (str (", ")) ((numeric_columns df).map String.data)) <:+:
          column_error_message df column)) ∧
    (∀ cells, df.lookupCol column = some cells →
      cells.filterMap Cell.to_numeric = [] →
      load_data (some df) column = Except.error (LoadError.noNumericData column)) := by
  constructor
  · intro hmem
    have hlook := lookupCol_eq_none_of_not_mem df column hmem
    refine ⟨by simp [load_data, hlook], ?_⟩
    intro hne
    unfold column_error_message
    rw [if_pos hne]
    exact (List.suffix_append _ _).isInfix
  · intro cells hcells hempty
    simp [load_data, hcells, hempty]

/-- Witness for C9 on a two-column frame: column `b` is numeric, column `a`
exists but coerces to nothing, and column `zzz` is absent. -/
theorem C9_load_error_taxonomy_witness :
    ("zzz" ∉ (DataFrame.mk [("a", [Cell.strv none]), ("b", [Cell.num 1])]).colNames) ∧
    load_data (some (DataFrame.mk [("a", [Cell.strv none]), ("b", [Cell.num 1])])) "zzz" =
      Except.error (LoadError.columnNotFound "zzz") ∧
    ((joinSep (str (", "))
        ((numeric_columns (DataFrame.mk [("a", [Cell.strv none]), ("b", [Cell.num 1])])).map
          String.data)) <:+:
      column_error_message (DataFrame.mk [("a", [Cell.strv none]), ("b", [Cell.num 1])]) "zzz") ∧
    load_data (some (DataFrame.mk [("a", [Cell.strv none]), ("b", [Cell.num 1])])) "a" =
      Except.error (LoadError.noNumericData "a") := by
  have h1 := (C9_load_error_taxonomy
    (DataFrame.mk [("a", [Cell.strv none]), ("b", [Cell.num 1])]) "zzz").1 (by decide)
  have h2 := (C9_load_error_taxonomy
    (DataFrame.mk [("a", [Cell.strv none]), ("b", [Cell.num 1])]) "a").2
    [Cell.strv none] rfl rfl
  exact ⟨by decide, h1.1, h1.2 (by decide), h2⟩

theorem str_newline : str ("\n") = ['\n'] := rfl

theorem str_newline2 : str ("\n\n") = ['\n', '\n'] := rfl

theorem digitChar_ne_newline (n : ℕ) : digitChar n ≠ '\n' := by
  unfold digitChar
  split <;> decide

theorem natDigitsAux_ne_newline (n : ℕ) :
    ∀ fuel : ℕ, ∀ c ∈ natDigitsAux fuel n, c ≠ '\n' := by
  induction n using Nat.strong_induction_on with
  | _ n ih =>
    intro fuel c hc
    match fuel with
    | 0 => simp [natDigitsAux] at hc
    | f + 1 =>
      rw [natDigitsAux] at hc
      by_cases h : n < 10
      · rw [if_pos h] at hc
        simp at hc
        rw [hc]
        exact digitChar_ne_newline n
      · rw [if_neg h] at hc
        rcases List.mem_append.mp hc with h1 | h2
        · exact ih (n / 10) (Nat.div_lt_self (by omega) (by omega)) n c h1
        · simp at h2
          rw [h2]
          exact digitChar_ne_newline (n % 10)

theorem fmtFixed_ne_newline (d : ℕ) (q : ℚ) :
    ∀ c ∈ fmtFixed d q, c ≠ '\n' := by
  intro c hc
  simp only [fmtFixed] at hc
  rcases List.mem_append.mp hc with h1 | h2
  · rcases List.mem_append.mp h1 with h3 | h4
    · rcases List.mem_append.mp h3 with h5 | h6
      · by_cases hneg : round (q * (10 : ℚ) ^ d) < 0
        · rw [if_pos hneg] at h5
          simp at h5
          rw [h5]; decide
        · rw [if_neg hneg] at h5
          simp at h5
      · exact natDigitsAux_ne_newline _ _ c h6
    · simp at h4
      rw [h4]; decide
  · unfold padZeros at h2
    rcases List.mem_append.mp h2 with h7 | h8
    · have := List.eq_of_mem_replicate h7
      rw [this]; decide
    · exact natDigitsAux_ne_newline _ _ c h8

theorem report_conclusion_ne_newline (p : ℚ) :
    ∀ c ∈ report_conclusion p, c ≠ '\n' := by
  unfold report_conclusion
  split <;> decide

theorem linesOf_newline_cons (rest : List Char) :
    linesOf ('\n' :: rest) = [] :: linesOf rest := by
  simpa using linesOf_cons_line [] rest (by simp)

/-- C6: the written report decomposes into exactly the claimed fixed line
structure — title line, blank line, the two statistic lines rendered to five
decimal places, and the conclusion line — with a final empty chunk from the
trailing newline; the conclusion sentence is "No anomaly detected" iff
`p > 0.05`, and "Anomaly detected" otherwise. -/
theorem C6_report_structure (column : PyStr) (tstat p : ℚ)
    (hcol : ∀ c ∈ column, c ≠ '\n') :
    linesOf (save_report_text column tstat p) =
      [str ("Benford\x27s Law Report for: ") ++ column, [],
       str ("Chi-squared statistic: ") ++ fmt5 tstat,
       str ("P-value: ") ++ fmt5 p,
       str ("Conclusion: ") ++ report_conclusion p, []] ∧
    (report_conclusion p = str ("No anomaly detected") ↔ p > 5 / 100) ∧
    (¬ p > 5 / 100 → report_conclusion p = str ("Anomaly detected")) := by
  refine ⟨?_, ?_, ?_⟩
  · have hA : ∀ c ∈ str ("Benford\x27s Law Report for: ") ++ column, c ≠ '\n' := by
      intro c hc
      rcases List.mem_append.mp hc with h1 | h2
      · have hlit : ∀ d ∈ str ("Benford\x27s Law Report for: "), d ≠ '\n' := by decide
        exact hlit c h1
      · exact hcol c h2
    have hB : ∀ c ∈ str ("Chi-squared statistic: ") ++ fmt5 tstat, c ≠ '\n' := by
      intro c hc
      rcases List.mem_append.mp hc with h1 | h2
      · have hlit : ∀ d ∈ str ("Chi-squared statistic: "), d ≠ '\n' := by decide
        exact hlit c h1
      · exact fmtFixed_ne_newline 5 tstat c h2
    have hC : ∀ c ∈ str ("P-value: ") ++ fmt5 p, c ≠ '\n' := by
      intro c hc
      rcases List.mem_append.mp hc with h1 | h2
      · have hlit : ∀ d ∈ str ("P-value: "), d ≠ '\n' := by decide
        exact hlit c h1
      · exact fmtFixed_ne_newline 5 p c h2
    have hD : ∀ c ∈ str ("Conclusion: ") ++ report_conclusion p, c ≠ '\n' := by
      intro c hc
      rcases List.mem_append.mp hc with h1 | h2
      · have hlit : ∀ d ∈ str ("Conclusion: "), d ≠ '\n' := by decide
        exact hlit c h1
      · exact report_conclusion_ne_newline p c h2
    have hshape : save_report_text column tstat p =
        (str ("Benford\x27s Law Report for: ") ++ column) ++ '\n' :: '\n' ::
        ((str ("Chi-squared statistic: ") ++ fmt5 tstat) ++ '\n' ::
        ((str ("P-value: ") ++ fmt5 p) ++ '\n' ::
        ((str ("Conclusion: ") ++ report_conclusion p) ++ '\n' :: []))) := by
      simp [save_report_text, str_newline, str_newline2, List.append_assoc]
    rw [hshape, linesOf_cons_line _ _ hA, linesOf_newline_cons,
      linesOf_cons_line _ _ hB, linesOf_cons_line _ _ hC,
      linesOf_cons_line _ _ hD]
    rfl
  · constructor
    · intro h
      by_contra hp
      unfold report_conclusion at h
      rw [if_neg hp] at h
      exact absurd h (by decide)
    · intro hp
      unfold report_conclusion
      rw [if_pos hp]
  · intro hp
    unfold report_conclusion
    rw [if_neg hp]

/-- Witness for C6 at column `amount`, statistic 2 and p-value 1/10. -/
theorem C6_report_structure_witness :
    (∀ c ∈ str ("amount"), c ≠ '\n') ∧
    (linesOf (save_report_text (str ("amount")) 2 (1 / 10)) =
      [str ("Benford\x27s Law Report for: ") ++ str ("amount"), [],
       str ("Chi-squared statistic: ") ++ fmt5 2,
       str ("P-value: ") ++ fmt5 (1 / 10),
       str ("Conclusion: ") ++ report_conclusion (1 / 10), []] ∧
    (report_conclusion (1 / 10) = str ("No anomaly detected") ↔ (1 : ℚ) / 10 > 5 / 100) ∧
    (¬ (1 : ℚ) / 10 > 5 / 100 → report_conclusion (1 / 10) = str ("Anomaly detected"))) :=
  ⟨by decide, C6_report_structure (str ("amount")) 2 (1 / 10) (by decide)⟩

theorem check_ok_eq (rl : InMemoryRateLimiter) (now : ℚ) (key : String)
    (hkeep : (rl.store key).filter (fun x => decide (now - rl.window_seconds ≤ x)) = rl.store key)
    (hlt : (rl.store key).length < rl.max_requests) :
    rl.check now key = (true,
      ⟨rl.max_requests, rl.window_seconds,
       fun k => if k = key then rl.store key ++ [now] else rl.store k⟩) := by
  simp only [InMemoryRateLimiter.check, hkeep]
  rw [if_neg (Nat.not_le.mpr hlt)]

theorem check_deny_eq (rl : InMemoryRateLimiter) (now : ℚ) (key : String)
    (hge : rl.max_requests ≤
      ((rl.store key).filter (fun x => decide (now - rl.window_seconds ≤ x))).length) :
    rl.check now key = (false,
      ⟨rl.max_requests, rl.window_seconds,
       fun k => if k = key then
         (rl.store key).filter (fun x => decide (now - rl.window_seconds ≤ x))
       else rl.store k⟩) := by
  simp only [InMemoryRateLimiter.check]
  rw [if_pos hge]

theorem runChecks_cons (rl : InMemoryRateLimiter) (key : String) (t : ℚ)
    (ts : List ℚ) :
    runChecks rl key (t :: ts) =
      ((rl.check t key).1 :: (runChecks (rl.check t key).2 key ts).1,
       (runChecks (rl.check t key).2 key ts).2) := rfl

theorem runChecks_all_true (key : String) (lo hi : ℚ) :
    ∀ (times : List ℚ) (rl : InMemoryRateLimiter),
      (∀ t ∈ times, lo ≤ t ∧ t ≤ hi) →
      (∀ x ∈ rl.store key, lo ≤ x ∧ x ≤ hi) →
      hi - lo ≤ rl.window_seconds →
      (rl.store key).length + times.length ≤ rl.max_requests →
      (runChecks rl key times).1 = List.replicate times.length true ∧
      (runChecks rl key times).2.max_requests = rl.max_requests ∧
      (runChecks rl key times).2.window_seconds = rl.window_seconds ∧
      (runChecks rl key times).2.store key = rl.store key ++ times := by
  intro times
  induction times with
  | nil => intro rl _ _ _ _; simp [runChecks]
  | cons t ts ih =>
    intro rl htimes hstore hwin hlen
    have ht := htimes t (by simp)
    have hkeep : (rl.store key).filter
        (fun x => decide (t - rl.window_seconds ≤ x)) = rl.store key := by
      rw [List.filter_eq_self]
      intro x hx
      have hx' := hstore x hx
      simp only [decide_eq_true_eq]
      linarith [hx'.1, hx'.2, ht.1, ht.2, hwin]
    have hlt : (rl.store key).length < rl.max_requests := by
      simp only [List.length_cons] at hlen
      omega
    have hc := check_ok_eq rl t key hkeep hlt
    set rl' : InMemoryRateLimiter :=
      ⟨rl.max_requests, rl.window_seconds,
       fun k => if k = key then rl.store key ++ [t] else rl.store k⟩ with hrl'
    have hstep : rl.check t key = (true, rl') := hc
    have hstore' : rl'.store key = rl.store key ++ [t] := by
      simp [hrl']
    have ihr := ih rl'
      (fun u hu => htimes u (by simp [hu]))
      (by
        rw [hstore']
        intro x hx
        rcases List.mem_append.mp hx with h1 | h2
        · exact hstore x h1
        · simp at h2
          rw [h2]
          exact ⟨ht.1, ht.2⟩)
      (by simp [hrl', hwin])
      (by
        rw [hstore']
        simp only [List.length_append, List.length_singleton, List.length_cons] at hlen ⊢
        try simp [hrl']
        try omega)
    rw [runChecks_cons, hstep]
    refine ⟨?_, ?_, ?_, ?_⟩
    · simp only [List.length_cons, List.replicate_succ]
      rw [ihr.1]
    · rw [ihr.2.1]
    · rw [ihr.2.2.1]
    · rw [ihr.2.2.2, hstore']
      simp

theorem check_state_fields (rl : InMemoryRateLimiter) (now : ℚ) (key : String) :
    ((rl.check now key).2.max_requests = rl.max_requests ∧
     (rl.check now key).2.window_seconds = rl.window_seconds) ∧
    ((rl.check now key).1 = false →
      (rl.check now key).2.store key =
        (rl.store key).filter (fun x => decide (now - rl.window_seconds ≤ x))) := by
  simp only [InMemoryRateLimiter.check]
  by_cases h : rl.max_requests ≤
      ((rl.store key).filter (fun x => decide (now - rl.window_seconds ≤ x))).length
  · rw [if_pos h]
    simp
  · rw [if_neg h]
    simp

theorem check_true_iff (rl : InMemoryRateLimiter) (now : ℚ) (key : String) :
    (rl.check now key).1 = true ↔
      ((rl.store key).filter
        (fun x => decide (now - rl.window_seconds ≤ x))).length < rl.max_requests := by
  simp only [InMemoryRateLimiter.check]
  by_cases h : rl.max_requests ≤
      ((rl.store key).filter (fun x => decide (now - rl.window_seconds ≤ x))).length
  · rw [if_pos h]
    constructor
    · intro hf
      simp at hf
    · intro hlt
      exact absurd h (Nat.not_le.mpr hlt)
  · rw [if_neg h]
    constructor
    · intro _
      exact Nat.not_le.mp h
    · intro _
      rfl

/-- C2: for the in-process rate limiter with parameters `max` and `window`,
after `max` admitted checks for identifier `X` within `window` seconds, the
next check for `X` (still inside the window) is denied; and once strictly
more than `window` seconds have elapsed since every one of those admissions,
a subsequent check for `X` is admitted again. -/
theorem C2_sliding_window_admission (max : ℕ) (window : ℚ) (X : String)
    (times : List ℚ) (t_deny t_ok : ℚ)
    (hmax : 1 ≤ max) (hlen : times.length = max)
    (hbounds : ∀ t ∈ times, t_deny - window ≤ t ∧ t ≤ t_deny)
    (helapsed : ∀ t ∈ times, t + window < t_ok) :
    (runChecks (InMemoryRateLimiter.fresh max window) X times).1 =
      List.replicate max true ∧
    ((runChecks (InMemoryRateLimiter.fresh max window) X times).2.check t_deny X).1
      = false ∧
    (((runChecks (InMemoryRateLimiter.fresh max window) X times).2.check t_deny X).2.check
      t_ok X).1 = true := by
  have hrun := runChecks_all_true X (t_deny - window) t_deny times
    (InMemoryRateLimiter.fresh max window)
    hbounds
    (by intro x hx; simp [InMemoryRateLimiter.fresh] at hx)
    (by simp [InMemoryRateLimiter.fresh])
    (by simp [InMemoryRateLimiter.fresh, hlen])
  obtain ⟨hres, hmaxR, hwinR, hstoreR⟩ := hrun
  set R := (runChecks (InMemoryRateLimiter.fresh max window) X times).2 with hR
  have hstore2 : R.store X = times := by
    rw [hstoreR]
    simp [InMemoryRateLimiter.fresh]
  have hmax2 : R.max_requests = max := by rw [hmaxR]; rfl
  have hwin2 : R.window_seconds = window := by rw [hwinR]; rfl
  have hfilter_deny : (R.store X).filter
      (fun x => decide (t_deny - R.window_seconds ≤ x)) = times := by
    rw [hstore2, hwin2, List.filter_eq_self]
    intro x hx
    simp only [decide_eq_true_eq]
    exact (hbounds x hx).1
  have hge : R.max_requests ≤ ((R.store X).filter
      (fun x => decide (t_deny - R.window_seconds ≤ x))).length := by
    rw [hfilter_deny, hlen, hmax2]
  have hdeny := check_deny_eq R t_deny X hge
  have hdeny1 : (R.check t_deny X).1 = false := by rw [hdeny]
  have hfields := check_state_fields R t_deny X
  have hSmax : (R.check t_deny X).2.max_requests = max := by
    rw [hfields.1.1, hmax2]
  have hSwin : (R.check t_deny X).2.window_seconds = window := by
    rw [hfields.1.2, hwin2]
  have hSstore : (R.check t_deny X).2.store X = times := by
    rw [hfields.2 hdeny1, hfilter_deny]
  refine ⟨by rw [hres, hlen], hdeny1, ?_⟩
  rw [check_true_iff, hSwin, hSstore, hSmax]
  have hnil : times.filter (fun x => decide (t_ok - window ≤ x)) = [] := by
    rw [List.filter_eq_nil_iff]
    intro x hx
    simp only [decide_eq_true_eq]
    intro hle
    have := helapsed x hx
    linarith
  rw [hnil]
  simpa using hmax

/-- Witness for C2: max = 2, window = 60 s, admissions at t = 0 and t = 30;
the next check at t = 30 is denied and a check at t = 100 (more than 60 s
after both admissions) is admitted again. -/
theorem C2_sliding_window_admission_witness :
    1 ≤ 2 ∧ ([(0 : ℚ), 30].length = 2) ∧
    (∀ t ∈ [(0 : ℚ), 30], (30 : ℚ) - 60 ≤ t ∧ t ≤ 30) ∧
    (∀ t ∈ [(0 : ℚ), 30], t + 60 < (100 : ℚ)) ∧
    ((runChecks (InMemoryRateLimiter.fresh 2 60) ("1.2.3.4") [0, 30]).1 =
      List.replicate 2 true ∧
    ((runChecks (InMemoryRateLimiter.fresh 2 60) ("1.2.3.4") [0, 30]).2.check
      30 ("1.2.3.4")).1 = false ∧
    (((runChecks (InMemoryRateLimiter.fresh 2 60) ("1.2.3.4") [0, 30]).2.check
      30 ("1.2.3.4")).2.check 100 ("1.2.3.4")).1 = true) := by
  have hb : ∀ t ∈ [(0 : ℚ), 30], (30 : ℚ) - 60 ≤ t ∧ t ≤ 30 := by
    intro t ht
    simp at ht
    rcases ht with rfl | rfl <;> constructor <;> norm_num
  have he : ∀ t ∈ [(0 : ℚ), 30], t + 60 < (100 : ℚ) := by
    intro t ht
    simp at ht
    rcases ht with rfl | rfl <;> norm_num
  exact ⟨by decide, by decide, hb, he,
    C2_sliding_window_admission 2 60 ("1.2.3.4") [0, 30] 30 100
      (by decide) (by decide) hb he⟩

theorem runRedisChecks_cons (rl : RedisRateLimiter) (key : String) (t : ℤ)
    (ts : List ℤ) :
    runRedisChecks rl key (t :: ts) =
      ((rl.check t key).1 :: (runRedisChecks (rl.check t key).2 key ts).1,
       (runRedisChecks (rl.check t key).2 key ts).2) := rfl

theorem redis_check_eq (rl : RedisRateLimiter) (now_ms : ℤ) (key : String)
    (hkeep : (rl.store key).filter
      (fun s => decide (¬ (0 ≤ s ∧ s ≤ now_ms - ⌊rl.window_seconds * 1000⌋))) =
      rl.store key)
    (hnotmem : now_ms ∉ rl.store key) :
    rl.check now_ms key =
      (decide ((rl.store key).length ≤ rl.max_requests),
       ⟨rl.max_requests, rl.window_seconds,
        fun k => if k = key then rl.store key ++ [now_ms] else rl.store k⟩) := by
  simp only [RedisRateLimiter.check, hkeep]
  rw [if_neg hnotmem]

theorem runRedisChecks_all_true (key : String) (lo hi : ℤ) :
    ∀ (times : List ℤ) (rl : RedisRateLimiter),
      (∀ t ∈ times, lo ≤ t ∧ t ≤ hi) →
      (∀ x ∈ rl.store key, lo ≤ x ∧ x ≤ hi) →
      0 ≤ lo →
      hi - lo < ⌊rl.window_seconds * 1000⌋ →
      (∀ t ∈ times, t ∉ rl.store key) →
      times.Nodup →
      (rl.store key).length + times.length ≤ rl.max_requests + 1 →
      (runRedisChecks rl key times).1 = List.replicate times.length true ∧
      (runRedisChecks rl key times).2.max_requests = rl.max_requests ∧
      (runRedisChecks rl key times).2.window_seconds = rl.window_seconds ∧
      (runRedisChecks rl key times).2.store key = rl.store key ++ times := by
  intro times
  induction times with
  | nil => intro rl _ _ _ _ _ _ _; simp [runRedisChecks]
  | cons t ts ih =>
    intro rl htimes hstore hlo hwin hfreshmem hnodup hlen
    have ht := htimes t (by simp)
    have hkeep : (rl.store key).filter
        (fun s => decide (¬ (0 ≤ s ∧ s ≤ t - ⌊rl.window_seconds * 1000⌋))) =
        rl.store key := by
      rw [List.filter_eq_self]
      intro x hx
      have hx' := hstore x hx
      simp only [decide_eq_true_eq]
      intro hcontra
      have h1 : x ≤ t - ⌊rl.window_seconds * 1000⌋ := hcontra.2
      have h2 := ht.2
      have h3 := hx'.1
      omega
    have hnotmem : t ∉ rl.store key := hfreshmem t (by simp)
    have hle : (rl.store key).length ≤ rl.max_requests := by
      simp only [List.length_cons] at hlen
      omega
    have hc := redis_check_eq rl t key hkeep hnotmem
    have hbool : (decide ((rl.store key).length ≤ rl.max_requests)) = true :=
      decide_eq_true hle
    set rl' : RedisRateLimiter :=
      ⟨rl.max_requests, rl.window_seconds,
       fun k => if k = key then rl.store key ++ [t] else rl.store k⟩ with hrl'
    have hstep : rl.check t key = (true, rl') := by
      rw [hc, hbool]
    have hstore' : rl'.store key = rl.store key ++ [t] := by
      simp [hrl']
    have ihr := ih rl'
      (fun u hu => htimes u (by simp [hu]))
      (by
        rw [hstore']
        intro x hx
        rcases List.mem_append.mp hx with h1 | h2
        · exact hstore x h1
        · simp at h2
          rw [h2]
          exact ⟨ht.1, ht.2⟩)
      hlo
      (by simpa [hrl'] using hwin)
      (by
        intro u hu
        rw [hstore']
        intro hmem
        rcases List.mem_append.mp hmem with h1 | h2
        · exact hfreshmem u (by simp [hu]) h1
        · simp at h2
          rw [h2] at hu
          exact (List.nodup_cons.mp hnodup).1 hu)
      ((List.nodup_cons.mp hnodup).2)
      (by
        rw [hstore']
        simp only [List.length_append, List.length_singleton, List.length_cons] at hlen ⊢
        try simp [hrl']
        try omega)
    rw [runRedisChecks_cons, hstep]
    refine ⟨?_, ?_, ?_, ?_⟩
    · simp only [List.length_cons, List.replicate_succ]
      rw [ihr.1]
    · rw [ihr.2.1]
    · rw [ihr.2.2.1]
    · rw [ihr.2.2.2, hstore']
      simp

theorem runChecks_append (key : String) (l1 l2 : List ℚ) :
    ∀ rl : InMemoryRateLimiter,
      (runChecks rl key (l1 ++ l2)).1 =
        (runChecks rl key l1).1 ++ (runChecks (runChecks rl key l1).2 key l2).1 ∧
      (runChecks rl key (l1 ++ l2)).2 = (runChecks (runChecks rl key l1).2 key l2).2 := by
  induction l1 with
  | nil => intro rl; simp [runChecks]
  | cons t ts ih =>
    intro rl
    have h2 := ih (rl.check t key).2
    simp only [List.cons_append, runChecks_cons]
    exact ⟨by rw [h2.1], h2.2⟩

/-- C3 counterexample: with max = 1 and a 60-second window, two checks for
the same identifier at the same instants (t = 0 s and t = 1 s, i.e. 0 ms and
1000 ms) are answered admit, deny by the in-process variant but admit, admit
by the Redis variant — the Redis comparison `count <= max` (pre-insertion) is
off by one against the in-process `count < max`. -/
theorem C3_counterexample_variants_disagree :
    (runChecks (InMemoryRateLimiter.fresh 1 60) ("c") [0, 1]).1 = [true, false] ∧
    (runRedisChecks (RedisRateLimiter.fresh 1 60) ("c") [0, 1000]).1 = [true, true] := by
  have hfl : ⌊(60 : ℚ) * 1000⌋ = 60000 := by norm_num
  constructor
  · simp [runChecks, InMemoryRateLimiter.check, InMemoryRateLimiter.fresh]
  · simp [runRedisChecks, RedisRateLimiter.check, RedisRateLimiter.fresh, hfl]

/-- C3 (amended): both variants prune expired entries and bound admissions by
a sliding window, but they are not answer-equivalent: the Redis variant admits
when the pruned pre-insertion count is at most `max` (the in-process variant
requires strictly less than `max`) and records the current timestamp even on
denial.  Concretely, for every `max ≥ 1` and window exceeding `max + 1`
seconds, checks at the instants 0, 1, …, max seconds (0, 1000, …, 1000·max
milliseconds) yield `max` admissions followed by a denial in-process, while
the Redis variant admits all `max + 1` of them. -/
theorem C3_redis_admits_one_more (max : ℕ) (window : ℚ)
    (_hmax : 1 ≤ max) (hwin : (max : ℚ) + 1 ≤ window) :
    (runChecks (InMemoryRateLimiter.fresh max window) ("c")
        (List.map (fun i : ℕ => (i : ℚ)) (List.range (max + 1)))).1 =
      List.replicate max true ++ [false] ∧
    (runRedisChecks (RedisRateLimiter.fresh max window) ("c")
        (List.map (fun i : ℕ => (1000 : ℤ) * (i : ℤ)) (List.range (max + 1)))).1 =
      List.replicate (max + 1) true := by
  constructor
  · have hsplit : List.map (fun i : ℕ => (i : ℚ)) (List.range (max + 1)) =
        List.map (fun i : ℕ => (i : ℚ)) (List.range max) ++ [(max : ℚ)] := by
      rw [List.range_succ, List.map_append]
      rfl
    rw [hsplit]
    have happ := runChecks_append ("c")
      (List.map (fun i : ℕ => (i : ℚ)) (List.range max))
      [(max : ℚ)] (InMemoryRateLimiter.fresh max window)
    rw [happ.1]
    have hmemrun := runChecks_all_true ("c") 0 (max : ℚ)
      (List.map (fun i : ℕ => (i : ℚ)) (List.range max))
      (InMemoryRateLimiter.fresh max window)
      (by
        intro t ht
        simp only [List.mem_map, List.mem_range] at ht
        obtain ⟨i, hi, rfl⟩ := ht
        refine ⟨Nat.cast_nonneg i, ?_⟩
        exact_mod_cast Nat.le_of_lt hi)
      (by intro x hx; simp [InMemoryRateLimiter.fresh] at hx)
      (by
        simp only [InMemoryRateLimiter.fresh]
        linarith)
      (by simp [InMemoryRateLimiter.fresh])
    obtain ⟨hres1, hmaxR, hwinR, hstoreR⟩ := hmemrun
    have hmax2 : (runChecks (InMemoryRateLimiter.fresh max window) ("c")
        (List.map (fun i : ℕ => (i : ℚ)) (List.range max))).2.max_requests = max := by
      rw [hmaxR]; rfl
    have hwin2 : (runChecks (InMemoryRateLimiter.fresh max window) ("c")
        (List.map (fun i : ℕ => (i : ℚ)) (List.range max))).2.window_seconds = window := by
      rw [hwinR]; rfl
    have hstore2 : (runChecks (InMemoryRateLimiter.fresh max window) ("c")
        (List.map (fun i : ℕ => (i : ℚ)) (List.range max))).2.store ("c") =
        List.map (fun i : ℕ => (i : ℚ)) (List.range max) := by
      rw [hstoreR]
      simp [InMemoryRateLimiter.fresh]
    have hdeny : ((runChecks (InMemoryRateLimiter.fresh max window) ("c")
        (List.map (fun i : ℕ => (i : ℚ)) (List.range max))).2.check
          (max : ℚ) ("c")).1 = false := by
      rw [← Bool.not_eq_true, check_true_iff, hstore2, hwin2, hmax2]
      have hkeepall : (List.map (fun i : ℕ => (i : ℚ)) (List.range max)).filter
          (fun x => decide ((max : ℚ) - window ≤ x)) =
          List.map (fun i : ℕ => (i : ℚ)) (List.range max) := by
        rw [List.filter_eq_self]
        intro x hx
        simp only [List.mem_map, List.mem_range] at hx
        obtain ⟨i, _, rfl⟩ := hx
        simp only [decide_eq_true_eq]
        have hge : (0 : ℚ) ≤ (i : ℚ) := Nat.cast_nonneg i
        linarith
      rw [hkeepall]
      simp
    have hsingle : (runChecks ((runChecks (InMemoryRateLimiter.fresh max window) ("c")
        (List.map (fun i : ℕ => (i : ℚ)) (List.range max))).2) ("c") [(max : ℚ)]).1 =
        [((runChecks (InMemoryRateLimiter.fresh max window) ("c")
        (List.map (fun i : ℕ => (i : ℚ)) (List.range max))).2.check (max : ℚ) ("c")).1] :=
      rfl
    rw [hres1, hsingle, hdeny]
    simp
  · have hredisrun := runRedisChecks_all_true ("c") 0 (1000 * (max : ℤ))
      (List.map (fun i : ℕ => (1000 : ℤ) * (i : ℤ)) (List.range (max + 1)))
      (RedisRateLimiter.fresh max window)
      (by
        intro t ht
        simp only [List.mem_map, List.mem_range] at ht
        obtain ⟨i, hi, rfl⟩ := ht
        constructor
        · positivity
        · have hle : (i : ℤ) ≤ (max : ℤ) := by exact_mod_cast Nat.le_of_lt_succ hi
          linarith)
      (by intro x hx; simp [RedisRateLimiter.fresh] at hx)
      le_rfl
      (by
        simp only [RedisRateLimiter.fresh]
        rw [sub_zero, Int.lt_iff_add_one_le, Int.le_floor]
        push_cast
        linarith)
      (by intro t ht; simp [RedisRateLimiter.fresh])
      (by
        refine List.Nodup.map ?_ (List.nodup_range (max + 1))
        intro a b hab
        simp only at hab
        have hc := mul_left_cancel₀ (by norm_num : (1000 : ℤ) ≠ 0) hab
        exact_mod_cast hc)
      (by simp [RedisRateLimiter.fresh])
    rw [hredisrun.1]
    simp

/-- Witness for the amended C3 at max = 1, window = 60 s. -/
theorem C3_redis_admits_one_more_witness :
    1 ≤ 1 ∧ ((1 : ℚ) + 1 ≤ 60) ∧
    ((runChecks (InMemoryRateLimiter.fresh 1 60) ("c")
        (List.map (fun i : ℕ => (i : ℚ)) (List.range 2))).1 =
      List.replicate 1 true ++ [false] ∧
    (runRedisChecks (RedisRateLimiter.fresh 1 60) ("c")
        (List.map (fun i : ℕ => (1000 : ℤ) * (i : ℤ)) (List.range 2))).1 =
      List.replicate 2 true) :=
  ⟨le_rfl, by norm_num,
   C3_redis_admits_one_more 1 60 le_rfl (by norm_num)⟩
